import Mathlib

/-!
Bookmark dashboard: state synchronisation and notification surface

A shallow embedding of `src/components/Dashboard.jsx`.  The React component
keeps five pieces of state (`bookmarks`, `title`, `url`, `loading`,
`notification`); every callback of the component is a state transformer.
Remote calls (`await supabase...`) split a callback in the part that runs
before the request is sent and the part that runs when the response arrives.
Pending `setTimeout` callbacks are kept as a list of due times next to a
clock in milliseconds.
-/

namespace BookmarkApp

/-! ## Data model -/

/-- Identifier of a bookmark row as it arrives in a JSON payload: a number or
a string.  The JavaScript operator `!==` compares such values without
coercion, so `1 !== "1"` holds; this is the inequality of this type. -/
inductive BookmarkId where
  | num (n : Int)
  | str (s : String)
  deriving DecidableEq, Repr

/-- A row of the `bookmarks` table.  Fields a payload may leave out
(`user_id`, `created_at`) are optional. -/
structure Bookmark where
  id : BookmarkId
  title : String
  url : String
  user_id : Option String
  created_at : Option String
  deriving DecidableEq, Repr

/-- The value of the `notification` state when it is not `null`:
`{ message: msg, type }`. -/
structure Notification where
  message : String
  type : String
  deriving DecidableEq, Repr

/-- A request sent to the remote store. -/
inductive Request where
  | insert (title url user_id : String)
  | delete (id : BookmarkId)
  deriving DecidableEq, Repr

/-- State of one mounted `Dashboard`: the five `useState` cells, the pending
`setTimeout` callbacks (due times, in registration order), the clock, and the
log of requests sent to the remote store. -/
structure DashState where
  bookmarks : List Bookmark
  title : String
  url : String
  loading : Bool
  notification : Option Notification
  timers : List Nat
  now : Nat
  requests : List Request
  deriving DecidableEq, Repr

/-- `useState(initialBookmarks)`, `useState("")`, `useState("")`,
`useState(false)`, `useState(null)`. -/
def DashState.init (initialBookmarks : List Bookmark) : DashState :=
  { bookmarks := initialBookmarks, title := "", url := "", loading := false,
    notification := none, timers := [], now := 0, requests := [] }

/-! ## Change-feed handlers (Dashboard.jsx, lines 51-83) -/

/-- The updater of the INSERT handler: `(prev) => [...prev, payload.new]`. -/
def insertHandler (prev : List Bookmark) (payloadNew : Bookmark) : List Bookmark :=
  prev ++ [payloadNew]

/-- The updater of the DELETE handler:
`(prev) => prev.filter((b) => b.id !== payload.old.id)`. -/
def deleteHandler (prev : List Bookmark) (payloadOldId : BookmarkId) : List Bookmark :=
  prev.filter (fun b => decide (b.id ≠ payloadOldId))

/-- `setBookmarks(f)` with a functional updater. -/
def setBookmarks (f : List Bookmark → List Bookmark) (s : DashState) : DashState :=
  { s with bookmarks := f s.bookmarks }

/-- A `postgres_changes` event on table `bookmarks`, as far as the handlers
read it: `payload.new` for INSERT, `payload.old.id` for DELETE. -/
inductive FeedEvent where
  | INSERT (payloadNew : Bookmark)
  | DELETE (payloadOldId : BookmarkId)
  deriving DecidableEq, Repr

/-- The channel calls the handler registered for the event type. -/
def onFeedEvent (ev : FeedEvent) (s : DashState) : DashState :=
  match ev with
  | .INSERT payloadNew => setBookmarks (fun prev => insertHandler prev payloadNew) s
  | .DELETE payloadOldId => setBookmarks (fun prev => deleteHandler prev payloadOldId) s

/-- The handlers run once per delivered event, in delivery order. -/
def processFeed : List FeedEvent → DashState → DashState
  | [], s => s
  | ev :: rest, s => processFeed rest (onFeedEvent ev s)

/-- The bookmark lists seen after each delivered event, the initial one
first. -/
def feedTrace : List FeedEvent → DashState → List (List Bookmark)
  | [], s => [s.bookmarks]
  | ev :: rest, s => s.bookmarks :: feedTrace rest (onFeedEvent ev s)

/-! ## Notification surface (Dashboard.jsx, lines 85-88) -/

/-- Source:
`setNotification({ message: msg, type }); setTimeout(() => setNotification(null), 3000);` -/
def showNotification (msg type : String) (s : DashState) : DashState :=
  { s with notification := some ⟨msg, type⟩, timers := s.timers ++ [s.now + 3000] }

/-- The clock moves forward by `dt` milliseconds; every pending timer that is
due by then runs its callback `() => setNotification(null)` and is gone.
Timers run at their due time, the earliest moment at which the event loop may
run them. -/
def advance (dt : Nat) (s : DashState) : DashState :=
  { s with
    now := s.now + dt
    timers := s.timers.filter (fun due => decide (s.now + dt < due))
    notification :=
      if s.timers.all (fun due => decide (s.now + dt < due)) then s.notification else none }

/-- An event of the notification surface: a call of `showNotification` or the
passing of time. -/
inductive NotifEvent where
  | show (msg type : String)
  | wait (dt : Nat)
  deriving DecidableEq, Repr

/-- One event of the notification surface. -/
def notifStep (s : DashState) (ev : NotifEvent) : DashState :=
  match ev with
  | .show msg type => showNotification msg type s
  | .wait dt => advance dt s

/-- A sequence of events of the notification surface, oldest first. -/
def notifRun (evs : List NotifEvent) (s : DashState) : DashState :=
  evs.foldl notifStep s

/-! ## Form submission and deletion (Dashboard.jsx, lines 96-138) -/

/-- White space and line terminators of ECMAScript, the characters that
`String.prototype.trim` strips: TAB, LF, VT, FF, CR, SP, NBSP, the other
space separators of Unicode, LS, PS and ZWNBSP.  All of them are single
UTF-16 code units, so trimming a list of characters and trimming the UTF-16
string agree. -/
def isJsWhiteSpace (c : Char) : Bool :=
  let n := c.toNat
  n == 0x9 || n == 0xA || n == 0xB || n == 0xC || n == 0xD || n == 0x20 || n == 0xA0 ||
  n == 0x1680 || (0x2000 ≤ n && n ≤ 0x200A) || n == 0x2028 || n == 0x2029 ||
  n == 0x202F || n == 0x205F || n == 0x3000 || n == 0xFEFF

/-- `String.prototype.trim` on the list of characters. -/
def jsTrimChars (cs : List Char) : List Char :=
  ((cs.dropWhile isJsWhiteSpace).reverse.dropWhile isJsWhiteSpace).reverse

/-- `s.trim()`. -/
def jsTrim (s : String) : String := ⟨jsTrimChars s.data⟩

/-- `!s` for a string `s`: only the empty string is falsy. -/
def jsNot (s : String) : Bool := s.data.isEmpty

/-- The part of `addBookmark` that runs before `await`: the two validation
guards, then `setLoading(true)` and the insert request.  `urlParses u` says
whether `new URL(u)` returns instead of throwing.  The boolean says whether a
request was sent, that is, whether the callback goes on when the response
arrives. -/
def addBookmarkStart (urlParses : String → Bool) (userId : String) (s : DashState) :
    DashState × Bool :=
  if jsNot (jsTrim s.title) || jsNot (jsTrim s.url) then
    (showNotification "Title and URL are required" "error" s, false)
  else if !urlParses s.url then
    (showNotification "Invalid URL format (e.g., https://google.com)" "error" s, false)
  else
    ({ s with loading := true,
              requests := s.requests ++ [Request.insert s.title s.url userId] }, true)

/-- The part of `addBookmark` that runs after `await`: `error` is the
`message` of the error of the response, `none` when the response has no
error. -/
def addBookmarkResume (error : Option String) (s : DashState) : DashState :=
  let s1 :=
    match error with
    | some message => showNotification message "error" s
    | none => { showNotification "Bookmark added!" "success" s with title := "", url := "" }
  { s1 with loading := false }

/-- The callback `addBookmark` run to its end, the response arriving with no
other callback in between. -/
def addBookmark (urlParses : String → Bool) (userId : String) (error : Option String)
    (s : DashState) : DashState :=
  match addBookmarkStart urlParses userId s with
  | (s1, true) => addBookmarkResume error s1
  | (s1, false) => s1

/-- The part of `handleDelete` before `await`: the delete request
`.delete().eq("id", id)`. -/
def handleDeleteStart (id : BookmarkId) (s : DashState) : DashState :=
  { s with requests := s.requests ++ [Request.delete id] }

/-- The part of `handleDelete` after `await`. -/
def handleDeleteResume (error : Option String) (s : DashState) : DashState :=
  match error with
  | some message => showNotification message "error" s
  | none => showNotification "Bookmark deleted" "success" s

/-- The callback `handleDelete` run to its end. -/
def handleDelete (id : BookmarkId) (error : Option String) (s : DashState) : DashState :=
  handleDeleteResume error (handleDeleteStart id s)

/-- Number of insert requests in a request log. -/
def insertCount (rs : List Request) : Nat :=
  (rs.filter (fun r => match r with | .insert _ _ _ => true | .delete _ => false)).length

/-! ## Callbacks of the component as one event system -/

/-- A callback run by the event loop of the mounted component: the form is
submitted, the response to an insert request arrives, a delete button is
clicked, the response to a delete request arrives, the change feed delivers
an event, time passes. -/
inductive AppEvent where
  | submit
  | addResponse (error : Option String)
  | clickDelete (id : BookmarkId)
  | deleteResponse (error : Option String)
  | feed (ev : FeedEvent)
  | tick (dt : Nat)
  deriving DecidableEq, Repr

/-- One callback of the component. -/
def appStep (urlParses : String → Bool) (userId : String) (s : DashState)
    (ev : AppEvent) : DashState :=
  match ev with
  | .submit => (addBookmarkStart urlParses userId s).1
  | .addResponse error => addBookmarkResume error s
  | .clickDelete id => handleDeleteStart id s
  | .deleteResponse error => handleDeleteResume error s
  | .feed ev => onFeedEvent ev s
  | .tick dt => advance dt s

/-- A sequence of callbacks, oldest first. -/
def appRun (urlParses : String → Bool) (userId : String) (evs : List AppEvent)
    (s : DashState) : DashState :=
  evs.foldl (appStep urlParses userId) s

/-- The feed events among a sequence of callbacks, in order. -/
def feedEventsOf : List AppEvent → List FeedEvent
  | [] => []
  | .feed ev :: rest => ev :: feedEventsOf rest
  | _ :: rest => feedEventsOf rest

/-- The input is valid for `addBookmark`: title and url are not empty after
trimming and the url parses. -/
def validInput (urlParses : String → Bool) (title url : String) : Prop :=
  jsTrim title ≠ "" ∧ jsTrim url ≠ "" ∧ urlParses url = true

instance (urlParses : String → Bool) (title url : String) :
    Decidable (validInput urlParses title url) := by
  unfold validInput
  infer_instance

/-- A form state with the given title and url typed in. -/
def formState (title url : String) : DashState :=
  { (DashState.init []) with title := title, url := url }

/-! ## The specification's reading of the feed handlers -/

/-- Removal of the first entry with the given id, nothing when there is
none: the delete step in the words of the specification. -/
def specRemoveFirst : List Bookmark → BookmarkId → List Bookmark
  | [], _ => []
  | b :: rest, x => if b.id = x then rest else b :: specRemoveFirst rest x

/-- One step of the specification's fold: an insert appends its record, a
delete removes the first entry with the deleted id. -/
def specStep (l : List Bookmark) (ev : FeedEvent) : List Bookmark :=
  match ev with
  | .INSERT r => l ++ [r]
  | .DELETE x => specRemoveFirst l x

/-- One step of the fold with the delete step removing every entry with the
deleted id. -/
def specStepAll (l : List Bookmark) (ev : FeedEvent) : List Bookmark :=
  match ev with
  | .INSERT r => l ++ [r]
  | .DELETE x => l.filter (fun b => decide (b.id ≠ x))

/-- The ids of a list of bookmarks, in order. -/
def ids (l : List Bookmark) : List BookmarkId := l.map (fun b => b.id)

/-- Every insert event of the sequence carries an id that no entry of the
list has at the moment the event is delivered. -/
def FreshInserts : List FeedEvent → List Bookmark → Prop
  | [], _ => True
  | .INSERT r :: rest, l => r.id ∉ ids l ∧ FreshInserts rest (insertHandler l r)
  | .DELETE x :: rest, l => FreshInserts rest (deleteHandler l x)

/-! ## Sample data -/

/-- The record of the specification's scenario: `{id:1,title:"A",url:"https://a.com"}`. -/
def bookmarkA : Bookmark :=
  { id := .num 1, title := "A", url := "https://a.com", user_id := none, created_at := none }

/-- A second record with the id of `bookmarkA`. -/
def bookmarkA2 : Bookmark :=
  { id := .num 1, title := "A again", url := "https://a.org", user_id := none,
    created_at := none }

/-- A record with another id. -/
def bookmarkB : Bookmark :=
  { id := .num 2, title := "B", url := "https://b.com", user_id := none, created_at := none }


/-! ## Helper lemmas on the two updaters -/

theorem mem_deleteHandler_iff (prev : List Bookmark) (x : BookmarkId) (b : Bookmark) :
    b ∈ deleteHandler prev x ↔ b ∈ prev ∧ b.id ≠ x := by
  simp [deleteHandler, List.mem_filter]

theorem deleteHandler_sublist (prev : List Bookmark) (x : BookmarkId) :
    (deleteHandler prev x).Sublist prev := by
  unfold deleteHandler
  exact List.filter_sublist prev

theorem deleteHandler_cons (b : Bookmark) (rest : List Bookmark) (x : BookmarkId) :
    deleteHandler (b :: rest) x =
      if b.id = x then deleteHandler rest x else b :: deleteHandler rest x := by
  by_cases h : b.id = x <;> simp [deleteHandler, List.filter_cons, h]

theorem deleteHandler_append (l₁ l₂ : List Bookmark) (x : BookmarkId) :
    deleteHandler (l₁ ++ l₂) x = deleteHandler l₁ x ++ deleteHandler l₂ x := by
  simp [deleteHandler, List.filter_append]

theorem deleteHandler_eq_self_of_absent (prev : List Bookmark) (x : BookmarkId)
    (h : ∀ b ∈ prev, b.id ≠ x) : deleteHandler prev x = prev := by
  unfold deleteHandler
  rw [List.filter_eq_self]
  intro b hb
  simpa using h b hb

theorem ids_count_deleteHandler_self (prev : List Bookmark) (x : BookmarkId) :
    (ids (deleteHandler prev x)).count x = 0 := by
  rw [List.count_eq_zero]
  intro hx
  simp only [ids, List.mem_map] at hx
  obtain ⟨b, hb, hbx⟩ := hx
  exact ((mem_deleteHandler_iff prev x b).1 hb).2 hbx

theorem count_deleteHandler_of_ne (prev : List Bookmark) (x : BookmarkId) (b : Bookmark)
    (h : b.id ≠ x) : (deleteHandler prev x).count b = prev.count b := by
  unfold deleteHandler
  exact List.count_filter (by simpa using h)

theorem length_deleteHandler_add_count (prev : List Bookmark) (x : BookmarkId) :
    (deleteHandler prev x).length + (ids prev).count x = prev.length := by
  induction prev with
  | nil => simp [deleteHandler, ids]
  | cons b rest ih =>
    rw [deleteHandler_cons]
    by_cases h : b.id = x
    · simp only [h, if_true, ids, List.map_cons, List.count_cons_self, List.length_cons]
      simp only [ids] at ih
      omega
    · have hne : (b.id == x) = false := by simpa using h
      simp only [h, if_false, ids, List.map_cons, List.length_cons, List.count_cons, hne]
      simp only [ids] at ih
      simp
      omega

theorem ids_deleteHandler_sublist (prev : List Bookmark) (x : BookmarkId) :
    (ids (deleteHandler prev x)).Sublist (ids prev) := by
  unfold ids
  exact (deleteHandler_sublist prev x).map _

theorem ids_insertHandler (prev : List Bookmark) (r : Bookmark) :
    ids (insertHandler prev r) = ids prev ++ [r.id] := by
  simp [ids, insertHandler]

theorem deleteHandler_specRemoveFirst (prev : List Bookmark) (x : BookmarkId) :
    deleteHandler (specRemoveFirst prev x) x = deleteHandler prev x := by
  induction prev with
  | nil => rfl
  | cons b rest ih =>
    by_cases h : b.id = x
    · simp [specRemoveFirst, deleteHandler_cons, h]
    · simp [specRemoveFirst, deleteHandler_cons, h, ih]

theorem specRemoveFirst_eq_deleteHandler_of_count_one (prev : List Bookmark) (x : BookmarkId)
    (h : (ids prev).count x = 1) : specRemoveFirst prev x = deleteHandler prev x := by
  induction prev with
  | nil => simp [ids] at h
  | cons b rest ih =>
    by_cases hb : b.id = x
    · have h0 : (ids rest).count x = 0 := by
        simp only [ids, List.map_cons, hb, List.count_cons_self] at h
        simp only [ids]
        omega
      have habs : ∀ c ∈ rest, c.id ≠ x := by
        intro c hc hcx
        rw [List.count_eq_zero] at h0
        exact h0 (by simp only [ids, List.mem_map]; exact ⟨c, hc, hcx⟩)
      simp [specRemoveFirst, deleteHandler_cons, hb, deleteHandler_eq_self_of_absent rest x habs]
    · have hne : (b.id == x) = false := by simpa using hb
      have h1 : (ids rest).count x = 1 := by
        simp only [ids, List.map_cons, List.count_cons, hne] at h
        simp only [ids]
        simpa using h
      simp [specRemoveFirst, deleteHandler_cons, hb, ih h1]

theorem onFeedEvent_bookmarks (ev : FeedEvent) (s : DashState) :
    (onFeedEvent ev s).bookmarks = specStepAll s.bookmarks ev := by
  cases ev <;> rfl

theorem onFeedEvent_frame (ev : FeedEvent) (s : DashState) :
    onFeedEvent ev s = { s with bookmarks := specStepAll s.bookmarks ev } := by
  cases ev <;> rfl

theorem processFeed_eq_fold_aux (evs : List FeedEvent) (s : DashState) :
    (processFeed evs s).bookmarks = evs.foldl specStepAll s.bookmarks := by
  induction evs generalizing s with
  | nil => rfl
  | cons ev rest ih =>
    have h1 := ih (onFeedEvent ev s)
    rw [onFeedEvent_bookmarks] at h1
    simpa [processFeed] using h1

/-! ## The INSERT handler -/

/-- C3: the INSERT handler returns the previous list with the record appended
as the last element; the previous entries are the first entries of the result,
unchanged and in order; the length grows by exactly one whether or not an
entry with the same id (or the same record) is present, so a record delivered
twice appears twice. -/
theorem insertHandler_appends (prev : List Bookmark) (r : Bookmark) (s : DashState) :
    insertHandler prev r = prev ++ [r] ∧
    (insertHandler prev r).take prev.length = prev ∧
    (insertHandler prev r).drop prev.length = [r] ∧
    (insertHandler prev r).getLast? = some r ∧
    (insertHandler prev r).length = prev.length + 1 ∧
    insertHandler (insertHandler prev r) r = prev ++ [r, r] ∧
    (insertHandler (insertHandler prev r) r).count r = prev.count r + 2 ∧
    (ids (insertHandler prev r)).count r.id = (ids prev).count r.id + 1 ∧
    (onFeedEvent (.INSERT r) s).bookmarks = s.bookmarks ++ [r] := by
  refine ⟨rfl, ?_, ?_, ?_, ?_, ?_, ?_, ?_, rfl⟩
  · simp [insertHandler]
  · simp [insertHandler]
  · simp [insertHandler]
  · simp [insertHandler]
  · simp [insertHandler]
  · simp [insertHandler, List.count_append]
  · simp [ids_insertHandler, List.count_append]

/-! ## The DELETE handler -/

/-- C10: the list returned by the DELETE handler has no entry with the deleted
id and is the sequence of the input entries with another id in their original
order (a sublist of the input that keeps every entry with another id as often
as the input has it); when several entries share the id, one event removes
them all. -/
theorem deleteHandler_removes_all (prev : List Bookmark) (x : BookmarkId) :
    (∀ b ∈ deleteHandler prev x, b.id ≠ x) ∧
    (ids (deleteHandler prev x)).count x = 0 ∧
    (deleteHandler prev x).Sublist prev ∧
    (∀ b : Bookmark, b ∈ deleteHandler prev x ↔ b ∈ prev ∧ b.id ≠ x) ∧
    (∀ b : Bookmark, b.id ≠ x → (deleteHandler prev x).count b = prev.count b) ∧
    (deleteHandler prev x).length + (ids prev).count x = prev.length ∧
    (∀ l₁ l₂ : List Bookmark, prev = l₁ ++ l₂ →
      deleteHandler prev x = deleteHandler l₁ x ++ deleteHandler l₂ x) := by
  refine ⟨?_, ids_count_deleteHandler_self prev x, deleteHandler_sublist prev x,
    mem_deleteHandler_iff prev x, ?_, length_deleteHandler_add_count prev x, ?_⟩
  · intro b hb
    exact ((mem_deleteHandler_iff prev x b).1 hb).2
  · intro b hb
    exact count_deleteHandler_of_ne prev x b hb
  · intro l₁ l₂ h
    rw [h, deleteHandler_append]

/-- C10 at a list with two entries of id 1: one delete event removes both and
keeps the entry with id 2. -/
theorem deleteHandler_removes_all_witness :
    deleteHandler [bookmarkA, bookmarkB, bookmarkA2] (.num 1) = [bookmarkB] := by
  decide

/-- C8: a delete event whose id is the id of no entry leaves the list as it
is. -/
theorem deleteHandler_absent (prev : List Bookmark) (x : BookmarkId)
    (h : ∀ b ∈ prev, b.id ≠ x) : deleteHandler prev x = prev :=
  deleteHandler_eq_self_of_absent prev x h

/-- C8 at the list of the records with ids 1 and 2 and the delete event for
id 3. -/
theorem deleteHandler_absent_witness :
    (∀ b ∈ [bookmarkA, bookmarkB], b.id ≠ BookmarkId.num 3) ∧
    deleteHandler [bookmarkA, bookmarkB] (.num 3) = [bookmarkA, bookmarkB] :=
  ⟨by decide, deleteHandler_absent [bookmarkA, bookmarkB] (.num 3) (by decide)⟩

/-- C9: on a list with no entry of id `r.id`, the INSERT handler for `r`
followed by the DELETE handler for `r.id` gives the list back; from the empty
list, insert of the record with id 1 then delete of id 1 gives the empty
list. -/
theorem insert_then_delete (prev : List Bookmark) (r : Bookmark)
    (h : ∀ b ∈ prev, b.id ≠ r.id) :
    deleteHandler (insertHandler prev r) r.id = prev ∧
    (processFeed [.INSERT r, .DELETE r.id] (DashState.init prev)).bookmarks = prev ∧
    (processFeed [.INSERT bookmarkA, .DELETE (.num 1)] (DashState.init [])).bookmarks = [] := by
  have key : deleteHandler (insertHandler prev r) r.id = prev := by
    unfold insertHandler
    rw [deleteHandler_append, deleteHandler_eq_self_of_absent prev r.id h]
    simp [deleteHandler]
  refine ⟨key, ?_, by decide⟩
  simpa [processFeed, onFeedEvent, setBookmarks, DashState.init] using key

/-- C9 at the list holding the record with id 2 and the record with id 1. -/
theorem insert_then_delete_witness :
    (∀ b ∈ [bookmarkB], b.id ≠ bookmarkA.id) ∧
    deleteHandler (insertHandler [bookmarkB] bookmarkA) bookmarkA.id = [bookmarkB] :=
  ⟨by decide, (insert_then_delete [bookmarkB] bookmarkA (by decide)).1⟩

/-- C2 fails as stated: on a list whose two entries share id 1, the DELETE
handler for id 1 returns the empty list, two entries shorter, and the later
entry with the same id is not kept. -/
theorem deleteHandler_first_only_counterexample :
    BookmarkId.num 1 ∈ ids [bookmarkA, bookmarkA2] ∧
    deleteHandler [bookmarkA, bookmarkA2] (.num 1) = [] ∧
    (deleteHandler [bookmarkA, bookmarkA2] (.num 1)).length + 1 ≠
      [bookmarkA, bookmarkA2].length ∧
    bookmarkA2 ∉ deleteHandler [bookmarkA, bookmarkA2] (.num 1) ∧
    deleteHandler [bookmarkA, bookmarkA2] (.num 1) ≠
      specRemoveFirst [bookmarkA, bookmarkA2] (.num 1) := by
  decide

/-- C2 as amended: when the id of the delete event occurs in the list, the
DELETE handler removes the first entry with that id and every later entry with
the same id, and no entry with another id: the result is what the handler
leaves of the list without its first match, it is shorter by the number of
entries with that id (so strictly shorter, and exactly one shorter when the id
occurs once, where it is the list without its first match), and the entries
with another id are kept in their original order. -/
theorem deleteHandler_present (prev : List Bookmark) (x : BookmarkId)
    (h : x ∈ ids prev) :
    deleteHandler prev x = deleteHandler (specRemoveFirst prev x) x ∧
    (deleteHandler prev x).length + (ids prev).count x = prev.length ∧
    (deleteHandler prev x).length < prev.length ∧
    ((ids prev).count x = 1 →
      deleteHandler prev x = specRemoveFirst prev x ∧
      (deleteHandler prev x).length + 1 = prev.length) ∧
    (deleteHandler prev x).Sublist prev ∧
    (∀ b : Bookmark, b.id ≠ x → (deleteHandler prev x).count b = prev.count b) := by
  have hlen := length_deleteHandler_add_count prev x
  have hpos : 0 < (ids prev).count x := List.count_pos_iff.2 h
  refine ⟨(deleteHandler_specRemoveFirst prev x).symm, hlen, by omega, ?_,
    deleteHandler_sublist prev x, fun b hb => count_deleteHandler_of_ne prev x b hb⟩
  intro h1
  exact ⟨(specRemoveFirst_eq_deleteHandler_of_count_one prev x h1).symm, by omega⟩

/-- C2 as amended, at the list with ids 1, 2, 1 and the delete event for
id 1. -/
theorem deleteHandler_present_witness :
    BookmarkId.num 1 ∈ ids [bookmarkA, bookmarkB, bookmarkA2] ∧
    (deleteHandler [bookmarkA, bookmarkB, bookmarkA2] (.num 1)).length <
      [bookmarkA, bookmarkB, bookmarkA2].length :=
  ⟨by decide, (deleteHandler_present [bookmarkA, bookmarkB, bookmarkA2] (.num 1)
    (by decide)).2.2.1⟩

/-! ## Sequences of feed events -/

/-- C1 fails as stated: from a list whose two entries share id 1, one delete
event for id 1 leaves the empty list, while the fold of the specification,
which removes the first match only, leaves the second entry. -/
theorem processFeed_first_match_counterexample :
    (processFeed [.DELETE (.num 1)] (DashState.init [bookmarkA, bookmarkA2])).bookmarks = [] ∧
    [FeedEvent.DELETE (.num 1)].foldl specStep [bookmarkA, bookmarkA2] = [bookmarkA2] ∧
    (processFeed [.DELETE (.num 1)] (DashState.init [bookmarkA, bookmarkA2])).bookmarks ≠
      [FeedEvent.DELETE (.num 1)].foldl specStep [bookmarkA, bookmarkA2] := by
  decide

/-- C1 as amended: the list after the two feed handlers have processed a
sequence of events is the left fold, in delivery order, of: an insert event
appends its record at the end, a delete event removes every entry whose id is
the deleted id (nothing if there is none); the handlers change no other part
of the state. -/
theorem processFeed_eq_fold (evs : List FeedEvent) (s : DashState) :
    (processFeed evs s).bookmarks = evs.foldl specStepAll s.bookmarks ∧
    processFeed evs s = { s with bookmarks := evs.foldl specStepAll s.bookmarks } := by
  induction evs generalizing s with
  | nil => exact ⟨rfl, rfl⟩
  | cons ev rest ih =>
    obtain ⟨h1, h2⟩ := ih (onFeedEvent ev s)
    rw [onFeedEvent_bookmarks] at h1
    refine ⟨by simpa [processFeed] using h1, ?_⟩
    simp only [processFeed, List.foldl_cons]
    rw [h2, onFeedEvent_frame]

/-- C4 fails as stated: from the empty list, whose ids are pairwise distinct,
the same insert delivered twice leaves a list with a repeated id. -/
theorem feed_ids_distinct_counterexample :
    (ids (DashState.init []).bookmarks).Nodup ∧
    (processFeed [.INSERT bookmarkA, .INSERT bookmarkA] (DashState.init [])).bookmarks =
      [bookmarkA, bookmarkA] ∧
    ¬ (ids (processFeed [.INSERT bookmarkA, .INSERT bookmarkA]
        (DashState.init [])).bookmarks).Nodup := by
  decide

/-- C4 as amended: when the initial list has pairwise distinct ids and every
insert event carries an id that no entry of the list has at the moment the
event is delivered, every intermediate list and the final list have pairwise
distinct ids. -/
theorem feed_ids_distinct (evs : List FeedEvent) (s : DashState)
    (h0 : (ids s.bookmarks).Nodup) (hfresh : FreshInserts evs s.bookmarks) :
    (∀ l ∈ feedTrace evs s, (ids l).Nodup) ∧
    (processFeed evs s).bookmarks ∈ feedTrace evs s ∧
    (ids (processFeed evs s).bookmarks).Nodup := by
  have main : ∀ (evs : List FeedEvent) (s : DashState), (ids s.bookmarks).Nodup →
      FreshInserts evs s.bookmarks →
      (∀ l ∈ feedTrace evs s, (ids l).Nodup) ∧
      (processFeed evs s).bookmarks ∈ feedTrace evs s := by
    intro evs
    induction evs with
    | nil =>
      intro s h0 _
      simp [feedTrace, processFeed, h0]
    | cons ev rest ih =>
      intro s h0 hf
      have hstep : (ids (onFeedEvent ev s).bookmarks).Nodup ∧
          FreshInserts rest (onFeedEvent ev s).bookmarks := by
        cases ev with
        | INSERT r =>
          obtain ⟨hr, hrest⟩ := hf
          refine ⟨?_, hrest⟩
          show (ids (insertHandler s.bookmarks r)).Nodup
          rw [ids_insertHandler]
          refine List.Nodup.append h0 (List.nodup_singleton _) ?_
          intro a ha hmem
          rw [List.mem_singleton] at hmem
          exact hr (hmem ▸ ha)
        | DELETE x =>
          exact ⟨List.Nodup.sublist (ids_deleteHandler_sublist s.bookmarks x) h0, hf⟩
      obtain ⟨ih1, ih2⟩ := ih (onFeedEvent ev s) hstep.1 hstep.2
      refine ⟨?_, ?_⟩
      · intro l hl
        simp only [feedTrace, List.mem_cons] at hl
        rcases hl with rfl | hl
        · exact h0
        · exact ih1 l hl
      · simp only [feedTrace, processFeed, List.mem_cons]
        exact Or.inr ih2
  obtain ⟨m1, m2⟩ := main evs s h0 hfresh
  exact ⟨m1, m2, m1 _ m2⟩

/-- C4 as amended, at the empty list and the events insert id 1, insert id 2,
delete id 1, insert id 1. -/
theorem feed_ids_distinct_witness :
    (ids (DashState.init []).bookmarks).Nodup ∧
    FreshInserts [.INSERT bookmarkA, .INSERT bookmarkB, .DELETE (.num 1), .INSERT bookmarkA2]
      (DashState.init []).bookmarks ∧
    (ids (processFeed
      [.INSERT bookmarkA, .INSERT bookmarkB, .DELETE (.num 1), .INSERT bookmarkA2]
      (DashState.init [])).bookmarks).Nodup :=
  ⟨by decide, by simp [FreshInserts, DashState.init, ids, insertHandler, deleteHandler,
      bookmarkA, bookmarkB, bookmarkA2],
    (feed_ids_distinct
      [.INSERT bookmarkA, .INSERT bookmarkB, .DELETE (.num 1), .INSERT bookmarkA2]
      (DashState.init []) (by decide)
      (by simp [FreshInserts, DashState.init, ids, insertHandler, deleteHandler,
        bookmarkA, bookmarkB, bookmarkA2])).2.2⟩

/-! ## Form submission, deletion and the frame of the list -/

theorem jsTrimChars_eq_nil_iff (cs : List Char) :
    jsTrimChars cs = [] ↔ ∀ c ∈ cs, isJsWhiteSpace c = true := by
  unfold jsTrimChars
  rw [List.reverse_eq_nil_iff, List.dropWhile_eq_nil_iff]
  constructor
  · intro h
    have h2 : ∀ c ∈ cs.dropWhile isJsWhiteSpace, isJsWhiteSpace c = true := by
      intro c hc
      exact h c (List.mem_reverse.2 hc)
    have h3 : (cs.dropWhile isJsWhiteSpace).dropWhile isJsWhiteSpace = [] :=
      List.dropWhile_eq_nil_iff.2 h2
    rw [List.dropWhile_idempotent] at h3
    exact List.dropWhile_eq_nil_iff.1 h3
  · intro h c hc
    have hd : cs.dropWhile isJsWhiteSpace = [] := List.dropWhile_eq_nil_iff.2 h
    rw [hd] at hc
    simp at hc

theorem jsNot_eq_true_iff (s : String) : jsNot s = true ↔ s = "" := by
  unfold jsNot
  rw [List.isEmpty_iff]
  constructor
  · intro h
    exact String.ext h
  · intro h
    rw [h]

theorem jsTrim_ne_empty_iff (s : String) :
    jsTrim s ≠ "" ↔ ∃ c ∈ s.data, isJsWhiteSpace c = false := by
  rw [Ne, ← jsNot_eq_true_iff]
  unfold jsNot jsTrim
  rw [List.isEmpty_iff, jsTrimChars_eq_nil_iff]
  simp

theorem addBookmarkStart_of_valid (urlParses : String → Bool) (userId : String)
    (s : DashState) (h : validInput urlParses s.title s.url) :
    addBookmarkStart urlParses userId s =
      ({ s with loading := true,
                requests := s.requests ++ [Request.insert s.title s.url userId] }, true) := by
  obtain ⟨ht, hu, hp⟩ := h
  have ht2 : jsNot (jsTrim s.title) = false := by
    rw [← Bool.not_eq_true, jsNot_eq_true_iff]; exact ht
  have hu2 : jsNot (jsTrim s.url) = false := by
    rw [← Bool.not_eq_true, jsNot_eq_true_iff]; exact hu
  simp [addBookmarkStart, ht2, hu2, hp]

theorem addBookmarkStart_of_invalid (urlParses : String → Bool) (userId : String)
    (s : DashState) (h : ¬ validInput urlParses s.title s.url) :
    addBookmarkStart urlParses userId s =
      (showNotification
        (if jsTrim s.title = "" ∨ jsTrim s.url = "" then "Title and URL are required"
         else "Invalid URL format (e.g., https://google.com)") "error" s, false) := by
  unfold addBookmarkStart
  by_cases hg : jsNot (jsTrim s.title) || jsNot (jsTrim s.url)
  · have hg2 : jsTrim s.title = "" ∨ jsTrim s.url = "" := by
      simpa [Bool.or_eq_true, jsNot_eq_true_iff] using hg
    rw [if_pos hg, if_pos hg2]
  · have hg2 : ¬ (jsTrim s.title = "" ∨ jsTrim s.url = "") := by
      simpa [Bool.or_eq_true, jsNot_eq_true_iff] using hg
    have hp : urlParses s.url = false := by
      by_contra hp
      exact h ⟨fun e => hg2 (Or.inl e), fun e => hg2 (Or.inr e), by simpa using hp⟩
    rw [if_neg hg, if_neg hg2]
    simp [hp]

theorem showNotification_bookmarks (msg type : String) (s : DashState) :
    (showNotification msg type s).bookmarks = s.bookmarks := rfl

theorem addBookmarkStart_bookmarks (urlParses : String → Bool) (userId : String)
    (s : DashState) : (addBookmarkStart urlParses userId s).1.bookmarks = s.bookmarks := by
  unfold addBookmarkStart
  split
  · rfl
  · split <;> rfl

theorem addBookmarkResume_bookmarks (error : Option String) (s : DashState) :
    (addBookmarkResume error s).bookmarks = s.bookmarks := by
  cases error <;> rfl

theorem handleDeleteResume_bookmarks (error : Option String) (s : DashState) :
    (handleDeleteResume error s).bookmarks = s.bookmarks := by
  cases error <;> rfl

theorem appStep_bookmarks_of_not_feed (urlParses : String → Bool) (userId : String)
    (s : DashState) (ev : AppEvent) (h : ∀ fe, ev ≠ .feed fe) :
    (appStep urlParses userId s ev).bookmarks = s.bookmarks := by
  cases ev with
  | submit => exact addBookmarkStart_bookmarks urlParses userId s
  | addResponse error => exact addBookmarkResume_bookmarks error s
  | clickDelete id => rfl
  | deleteResponse error => exact handleDeleteResume_bookmarks error s
  | feed fe => exact absurd rfl (h fe)
  | tick dt => rfl

theorem processFeed_bookmarks_congr (evs : List FeedEvent) (s t : DashState)
    (h : s.bookmarks = t.bookmarks) :
    (processFeed evs s).bookmarks = (processFeed evs t).bookmarks := by
  rw [processFeed_eq_fold_aux, processFeed_eq_fold_aux, h]

theorem appRun_bookmarks (urlParses : String → Bool) (userId : String)
    (evs : List AppEvent) (s : DashState) :
    (appRun urlParses userId evs s).bookmarks =
      (processFeed (feedEventsOf evs) s).bookmarks := by
  induction evs generalizing s with
  | nil => rfl
  | cons ev rest ih =>
    have step : (appRun urlParses userId (ev :: rest) s) =
        appRun urlParses userId rest (appStep urlParses userId s ev) := rfl
    rw [step, ih]
    cases ev with
    | feed fe => rfl
    | submit =>
      exact processFeed_bookmarks_congr _ _ s (addBookmarkStart_bookmarks urlParses userId s)
    | addResponse error =>
      exact processFeed_bookmarks_congr _ _ s (addBookmarkResume_bookmarks error s)
    | clickDelete id => exact processFeed_bookmarks_congr _ _ s rfl
    | deleteResponse error =>
      exact processFeed_bookmarks_congr _ _ s (handleDeleteResume_bookmarks error s)
    | tick dt => exact processFeed_bookmarks_congr _ _ s rfl

/-- C5: with URL parsing a predicate on the url string, `addBookmark` sends
exactly one insert request, with the title, url and user id as typed, and
shows no validation error (its only notification is the one for the response
of the remote store) when title and url are not empty after trimming and the
url parses; in every other case it sends no request and shows an error
notification, the one of the guard that failed. -/
theorem addBookmark_validation (urlParses : String → Bool) (userId : String)
    (error : Option String) (s : DashState) :
    if validInput urlParses s.title s.url then
      (addBookmark urlParses userId error s).requests =
        s.requests ++ [Request.insert s.title s.url userId] ∧
      insertCount (addBookmark urlParses userId error s).requests =
        insertCount s.requests + 1 ∧
      (addBookmarkStart urlParses userId s).2 = true ∧
      (addBookmarkStart urlParses userId s).1.notification = s.notification ∧
      (addBookmarkStart urlParses userId s).1.timers = s.timers ∧
      (addBookmark urlParses userId error s).notification =
        some (match error with
              | some message => ⟨message, "error"⟩
              | none => ⟨"Bookmark added!", "success"⟩)
    else
      (addBookmark urlParses userId error s).requests = s.requests ∧
      insertCount (addBookmark urlParses userId error s).requests = insertCount s.requests ∧
      (addBookmarkStart urlParses userId s).2 = false ∧
      (addBookmark urlParses userId error s).notification =
        some ⟨if jsTrim s.title = "" ∨ jsTrim s.url = "" then "Title and URL are required"
              else "Invalid URL format (e.g., https://google.com)", "error"⟩ := by
  by_cases h : validInput urlParses s.title s.url
  · rw [if_pos h]
    have hs := addBookmarkStart_of_valid urlParses userId s h
    unfold addBookmark
    rw [hs]
    refine ⟨?_, ?_, rfl, rfl, rfl, ?_⟩
    · cases error <;> rfl
    · cases error <;> simp [addBookmarkResume, showNotification, insertCount, List.filter_append]
    · cases error <;> rfl
  · rw [if_neg h]
    have hs := addBookmarkStart_of_invalid urlParses userId s h
    unfold addBookmark
    rw [hs]
    exact ⟨rfl, rfl, rfl, rfl⟩

/-- C5 on the scenarios of the specification: `add("Example",
"https://example.com")` sends the one insert request with that payload and
leaves the list alone; `add("", "https://x.com")` sends none and shows the
validation error. -/
theorem addBookmark_validation_witness :
    ((addBookmark (fun _ => true) "u1" none
        (formState "Example" "https://example.com")).requests =
      [Request.insert "Example" "https://example.com" "u1"]) ∧
    ((addBookmark (fun _ => true) "u1" none (formState "" "https://x.com")).requests = [] ∧
      (addBookmark (fun _ => true) "u1" none (formState "" "https://x.com")).notification =
        some ⟨"Title and URL are required", "error"⟩) := by
  have h1 := addBookmark_validation (fun _ => true) "u1" none
    (formState "Example" "https://example.com")
  have h2 := addBookmark_validation (fun _ => true) "u1" none (formState "" "https://x.com")
  rw [if_pos (by decide)] at h1
  rw [if_neg (by decide)] at h2
  refine ⟨h1.1, h2.1, ?_⟩
  rw [h2.2.2.2]
  decide

/-- C6: `addBookmark` and `handleDelete` never change the bookmark list,
whatever the input and the outcome of the remote request, as whole callbacks
and in each of their parts before and after the response; in any sequence of
callbacks of the component the list is the one that the feed events of the
sequence produce. -/
theorem addBookmark_handleDelete_frame (urlParses : String → Bool) (userId : String)
    (error : Option String) (id : BookmarkId) (s : DashState) (evs : List AppEvent) :
    (addBookmark urlParses userId error s).bookmarks = s.bookmarks ∧
    (handleDelete id error s).bookmarks = s.bookmarks ∧
    (addBookmarkStart urlParses userId s).1.bookmarks = s.bookmarks ∧
    (addBookmarkResume error s).bookmarks = s.bookmarks ∧
    (handleDeleteStart id s).bookmarks = s.bookmarks ∧
    (handleDeleteResume error s).bookmarks = s.bookmarks ∧
    (appRun urlParses userId evs s).bookmarks =
      (feedEventsOf evs).foldl specStepAll s.bookmarks := by
  have hstart := addBookmarkStart_bookmarks urlParses userId s
  refine ⟨?_, ?_, hstart, addBookmarkResume_bookmarks error s, rfl,
    handleDeleteResume_bookmarks error s, ?_⟩
  · unfold addBookmark
    rcases hres : addBookmarkStart urlParses userId s with ⟨s1, b⟩
    rw [hres] at hstart
    cases b
    · exact hstart
    · show (addBookmarkResume error s1).bookmarks = s.bookmarks
      rw [addBookmarkResume_bookmarks]
      exact hstart
  · unfold handleDelete
    rw [handleDeleteResume_bookmarks]
    rfl
  · rw [appRun_bookmarks, processFeed_eq_fold_aux]

/-! ## The notification timer -/

/-- C7 fails as stated: notification A is shown at time 0 and notification B
at time 2000; at time 3000, one second after B was shown and with no newer
notification, the timer of A has cleared B, whose own timer (due at 5000) is
still pending. -/
theorem showNotification_restart_counterexample :
    (notifRun [.show "A" "error", .wait 2000, .show "B" "success"]
        (DashState.init [])).notification = some ⟨"B", "success"⟩ ∧
    (notifRun [.show "A" "error", .wait 2000, .show "B" "success"]
        (DashState.init [])).now = 2000 ∧
    (notifRun [.show "A" "error", .wait 2000, .show "B" "success", .wait 1000]
        (DashState.init [])).now = 3000 ∧
    (notifRun [.show "A" "error", .wait 2000, .show "B" "success", .wait 1000]
        (DashState.init [])).notification = none ∧
    (notifRun [.show "A" "error", .wait 2000, .show "B" "success", .wait 1000]
        (DashState.init [])).timers = [5000] := by
  decide

/-- C7 as amended: `showNotification` adds a timer of 3 seconds of its own and
cancels none, and a timer that expires clears the notification visible then.
So after any history, a notification shown now is still visible `dt`
milliseconds later (no newer one shown meanwhile) exactly when `dt` is under
3000 and no timer of an older notification expires by then; with no older
timer pending it is visible for the 3 seconds and gone after them. -/
theorem showNotification_visible_iff (s : DashState) (msg type : String) (dt : Nat) :
    (showNotification msg type s).notification = some ⟨msg, type⟩ ∧
    (showNotification msg type s).timers = s.timers ++ [s.now + 3000] ∧
    (advance dt (showNotification msg type s)).notification =
      (if dt < 3000 ∧ ∀ due ∈ s.timers, s.now + dt < due then some ⟨msg, type⟩ else none) ∧
    (s.timers = [] →
      (advance dt (showNotification msg type s)).notification =
        if dt < 3000 then some ⟨msg, type⟩ else none) := by
  have main : (advance dt (showNotification msg type s)).notification =
      (if dt < 3000 ∧ ∀ due ∈ s.timers, s.now + dt < due then some ⟨msg, type⟩
       else none) := by
    simp only [advance, showNotification, List.all_append, List.all_cons, List.all_nil,
      Bool.and_true, Bool.and_eq_true, List.all_eq_true, decide_eq_true_eq,
      Nat.add_lt_add_iff_left]
    by_cases h : dt < 3000 ∧ ∀ due ∈ s.timers, s.now + dt < due
    · rw [if_pos h, if_pos ⟨h.2, h.1⟩]
    · rw [if_neg h, if_neg (fun h2 => h ⟨h2.2, h2.1⟩)]
  refine ⟨rfl, rfl, main, ?_⟩
  intro ht
  rw [main, ht]
  simp

/-- C7 as amended, from the initial state: the notification is visible 2999
milliseconds after it was shown and gone after 3000. -/
theorem showNotification_visible_iff_witness :
    (DashState.init []).timers = [] ∧
    (advance 2999 (showNotification "A" "error" (DashState.init []))).notification =
      some ⟨"A", "error"⟩ ∧
    (advance 3000 (showNotification "A" "error" (DashState.init []))).notification = none := by
  refine ⟨rfl, ?_, ?_⟩
  · rw [(showNotification_visible_iff (DashState.init []) "A" "error" 2999).2.2.2 rfl]
    decide
  · rw [(showNotification_visible_iff (DashState.init []) "A" "error" 3000).2.2.2 rfl]
    decide

end BookmarkApp
